import Mathlib

/-!
Verification development for the ticktick-mcp task filtering core
(`ticktick_mcp/src/server.py`).

The Python functions are shallowly embedded as executable Lean definitions:
strings are Lean `String`s (manipulated through their `List Char` data),
Python `datetime` objects are the `PyDateTime` structure below (wall-clock
fields plus an optional UTC offset in minutes; `tz = none` models a naive
datetime), Python dicts holding tasks/projects become structures with
`Option` fields (a missing key is `none`), and the repeated calls to
`datetime.now(timezone.utc)` are embedded as reads `clock idx` from an
abstract clock stream, one fresh index per call, threaded through the
evaluation.  Python exceptions that escape a function are modelled with
`Except String`.
-/

/-! ### Characters and digit strings -/

/-- ASCII digit test, as used by `str.isdigit()` and the `%d` regex classes
of `_strptime` (the date strings at issue are ASCII). -/
def isDigit (c : Char) : Bool := 48 ≤ c.toNat && c.toNat ≤ 57

/-- Numeric value of an ASCII digit character. -/
def digitVal (c : Char) : Nat := c.toNat - 48

/-- The ASCII digit character for a value `≤ 9`. -/
def digitChar : Nat → Char
  | 0 => '0' | 1 => '1' | 2 => '2' | 3 => '3' | 4 => '4'
  | 5 => '5' | 6 => '6' | 7 => '7' | 8 => '8' | _ => '9'

/-- `v` printed in decimal, left padded with zeros to exactly `k` digits
(the form emitted by `%02d`-style formatting in the rendered timestamps). -/
def padN : Nat → Nat → List Char
  | 0, _ => []
  | k+1, v => padN k (v / 10) ++ [digitChar (v % 10)]

/-- Decimal value accumulated over a digit list. -/
def valOf (ds : List Char) (acc : Nat) : Nat :=
  ds.foldl (fun a c => a * 10 + digitVal c) acc

theorem isDigit_digitChar (k : Nat) (h : k ≤ 9) : isDigit (digitChar k) = true := by
  interval_cases k <;> decide

theorem digitVal_digitChar (k : Nat) (h : k ≤ 9) : digitVal (digitChar k) = k := by
  interval_cases k <;> decide

theorem digitChar_ne_plus (k : Nat) (h : k ≤ 9) : digitChar k ≠ '+' := by
  interval_cases k <;> decide

theorem digitChar_ne_minus (k : Nat) (h : k ≤ 9) : digitChar k ≠ '-' := by
  interval_cases k <;> decide

theorem digitChar_ne_colon (k : Nat) (h : k ≤ 9) : digitChar k ≠ ':' := by
  interval_cases k <;> decide

theorem padN_length (k v : Nat) : (padN k v).length = k := by
  induction k generalizing v with
  | zero => rfl
  | succ k ih => simp [padN, ih]

theorem padN_digits (k v : Nat) : ∀ c ∈ padN k v, isDigit c = true := by
  induction k generalizing v with
  | zero => simp [padN]
  | succ k ih =>
    intro c hc
    simp only [padN, List.mem_append, List.mem_singleton] at hc
    rcases hc with hc | hc
    · exact ih _ c hc
    · subst hc; exact isDigit_digitChar _ (Nat.le_of_lt_succ (Nat.mod_lt _ (by omega)))

theorem valOf_padN (k v acc : Nat) (h : v < 10 ^ k) :
    valOf (padN k v) acc = acc * 10 ^ k + v := by
  induction k generalizing v acc with
  | zero =>
    interval_cases v
    simp [padN, valOf]
  | succ k ih =>
    have hdiv : v / 10 < 10 ^ k := by
      rw [Nat.div_lt_iff_lt_mul (by omega)]
      calc v < 10 ^ (k+1) := h
        _ = 10 ^ k * 10 := by rw [Nat.pow_succ]
    simp only [padN, valOf, List.foldl_append, List.foldl_cons, List.foldl_nil]
    have := ih (v / 10) acc hdiv
    simp only [valOf] at this
    rw [this, digitVal_digitChar _ (Nat.le_of_lt_succ (Nat.mod_lt _ (by omega)))]
    have hvm : 10 * (v / 10) + v % 10 = v := Nat.div_add_mod v 10
    calc (acc * 10 ^ k + v / 10) * 10 + v % 10
        = acc * (10 ^ k * 10) + (10 * (v / 10) + v % 10) := by ring
      _ = acc * 10 ^ (k+1) + v := by rw [hvm, Nat.pow_succ]

/-- Two digit forms used in all the rendered timestamps. -/
theorem padN_two (v : Nat) (h : v ≤ 99) :
    padN 2 v = [digitChar (v / 10), digitChar (v % 10)] := by
  have h10 : v / 10 ≤ 9 := by omega
  simp only [padN, List.nil_append]
  have hm : v / 10 % 10 = v / 10 := Nat.mod_eq_of_lt (by omega)
  rw [hm]
  rfl

/-! ### Field parsers for the `_strptime` format regexes

`datetime.strptime` compiles a format string to a regex and requires the
whole input to be consumed.  The pieces used by the two formats in
`_parse_ticktick_date` are `%Y` (exactly four digits), `%m`/`%d`/`%H`/`%M`/`%S`
(two digits in range, else one digit in range), `%f` (one to six digits,
right padded with zeros to microseconds) and `%z`
(`Z`, `±HHMM` or `±HH:MM`). -/

/-- Exactly `k` digits, most significant first, with an accumulator. -/
def parseFixedGo : Nat → Nat → List Char → Option (Nat × List Char)
  | 0, acc, cs => some (acc, cs)
  | k+1, acc, c :: cs =>
    if isDigit c then parseFixedGo k (acc * 10 + digitVal c) cs else none
  | _+1, _, [] => none

/-- Exactly `k` digits. -/
def parseFixed (k : Nat) (cs : List Char) : Option (Nat × List Char) :=
  parseFixedGo k 0 cs

/-- A `_strptime` numeric field: two digits with value in `[lo2, hi2]`, or
failing that a single digit with value in `[lo1, hi1]` (mirrors the regex
alternations such as `1[0-2]|0[1-9]|[1-9]` for `%m`). -/
def parseFld (lo2 hi2 lo1 hi1 : Nat) : List Char → Option (Nat × List Char)
  | c1 :: c2 :: rest =>
    if isDigit c1 && isDigit c2
        && decide (lo2 ≤ 10 * digitVal c1 + digitVal c2)
        && decide (10 * digitVal c1 + digitVal c2 ≤ hi2) then
      some (10 * digitVal c1 + digitVal c2, rest)
    else if isDigit c1 && decide (lo1 ≤ digitVal c1) && decide (digitVal c1 ≤ hi1) then
      some (digitVal c1, c2 :: rest)
    else none
  | [c1] =>
    if isDigit c1 && decide (lo1 ≤ digitVal c1) && decide (digitVal c1 ≤ hi1) then
      some (digitVal c1, [])
    else none
  | [] => none

/-- Greedy run of at most `fuel` digits, returning how many were taken,
their value, and the rest (the `%f` field, `[0-9]{1,6}`). -/
def parseFracGo : Nat → Nat → Nat → List Char → Nat × Nat × List Char
  | 0, cnt, acc, cs => (cnt, acc, cs)
  | fuel+1, cnt, acc, c :: cs =>
    if isDigit c then parseFracGo fuel (cnt + 1) (acc * 10 + digitVal c) cs
    else (cnt, acc, c :: cs)
  | _+1, cnt, acc, [] => (cnt, acc, [])

/-- The `%f` field: one to six digits, scaled to microseconds by right
padding with zeros (CPython pads `found_dict[f]` to six digits). -/
def parseFrac (cs : List Char) : Option (Nat × List Char) :=
  let r := parseFracGo 6 0 0 cs
  if r.1 = 0 then none else some (r.2.1 * 10 ^ (6 - r.1), r.2.2)

/-- One expected literal character. -/
def expectChar (c : Char) : List Char → Option (List Char)
  | x :: xs => if x = c then some xs else none
  | [] => none

/-- The `%z` field: `Z` (UTC), or a sign, two digits, an optional colon and
two more digits; the offset is returned in minutes.  (The regex also allows
a seconds extension `:SS(.ffffff)`, which TickTick never emits and which is
not modelled.) -/
def parseZoff : List Char → Option (Int × List Char)
  | c :: rest =>
    if c = 'Z' then some (0, rest)
    else if c = '+' || c = '-' then
      match parseFixed 2 rest with
      | none => none
      | some (hh, rest1) =>
        let rest2 := if rest1.head? = some ':' then rest1.tail else rest1
        match parseFixed 2 rest2 with
        | none => none
        | some (mm, rest3) =>
          let off : Int := (hh * 60 + mm : Nat)
          some (if c = '-' then -off else off, rest3)
    else none
  | [] => none

theorem parseFixedGo_append (ds : List Char) (acc : Nat) (rest : List Char)
    (h : ∀ c ∈ ds, isDigit c = true) :
    parseFixedGo ds.length acc (ds ++ rest) = some (valOf ds acc, rest) := by
  induction ds generalizing acc with
  | nil => simp [parseFixedGo, valOf]
  | cons c ds ih =>
    have hc : isDigit c = true := h c (List.mem_cons_self _ _)
    simp only [List.length_cons, List.cons_append, parseFixedGo, hc, if_true, List.append_eq]
    rw [ih _ (fun x hx => h x (List.mem_cons_of_mem _ hx))]
    rfl

theorem parseFixed_padN (k v : Nat) (rest : List Char) (h : v < 10 ^ k) :
    parseFixed k (padN k v ++ rest) = some (v, rest) := by
  unfold parseFixed
  have hl := padN_length k v
  calc parseFixedGo k 0 (padN k v ++ rest)
      = parseFixedGo (padN k v).length 0 (padN k v ++ rest) := by rw [hl]
    _ = some (valOf (padN k v) 0, rest) := parseFixedGo_append _ 0 rest (padN_digits k v)
    _ = some (v, rest) := by rw [valOf_padN k v 0 h]; norm_num

theorem parseFld_padTwo (lo2 hi2 lo1 hi1 v : Nat) (rest : List Char)
    (hv : v ≤ 99) (hlo : lo2 ≤ v) (hhi : v ≤ hi2) :
    parseFld lo2 hi2 lo1 hi1 (padN 2 v ++ rest) = some (v, rest) := by
  rw [padN_two v hv]
  have h1 : v / 10 ≤ 9 := by omega
  have h2 : v % 10 ≤ 9 := by omega
  have hrec : 10 * digitVal (digitChar (v / 10)) + digitVal (digitChar (v % 10)) = v := by
    rw [digitVal_digitChar _ h1, digitVal_digitChar _ h2]
    omega
  simp only [List.cons_append, List.nil_append, parseFld,
    isDigit_digitChar _ h1, isDigit_digitChar _ h2, hrec, hlo, hhi,
    decide_true_eq_true, Bool.and_self, Bool.true_and, decide_eq_true_eq]
  rw [if_pos]
  simp [decide_eq_true_eq, hlo, hhi]

theorem parseFracGo_append (ds : List Char) (cnt acc : Nat) (rest : List Char)
    (h : ∀ c ∈ ds, isDigit c = true) :
    parseFracGo ds.length cnt acc (ds ++ rest) = (cnt + ds.length, valOf ds acc, rest) := by
  induction ds generalizing cnt acc with
  | nil => simp [parseFracGo, valOf]
  | cons c ds ih =>
    have hc : isDigit c = true := h c (List.mem_cons_self _ _)
    simp only [List.length_cons, List.cons_append, parseFracGo, hc, if_true, List.append_eq]
    rw [ih _ _ (fun x hx => h x (List.mem_cons_of_mem _ hx))]
    simp only [valOf, List.foldl_cons]
    have : cnt + 1 + ds.length = cnt + (ds.length + 1) := by omega
    rw [this]

theorem parseFrac_padSix (us : Nat) (rest : List Char) (h : us ≤ 999999) :
    parseFrac (padN 6 us ++ rest) = some (us, rest) := by
  unfold parseFrac
  have hl := padN_length 6 us
  have h6 : parseFracGo 6 0 0 (padN 6 us ++ rest) = (0 + 6, valOf (padN 6 us) 0, rest) := by
    conv_lhs => rw [show (6 : Nat) = (padN 6 us).length from hl.symm]
    exact parseFracGo_append _ 0 0 rest (padN_digits 6 us)
  rw [h6, valOf_padN 6 us 0 (by omega)]
  norm_num
    

/-- The sign character of an offset: `true` renders `+`, `false` renders `-`. -/
def signChar (b : Bool) : Char := if b then '+' else '-'

/-- Offset in minutes denoted by sign/hours/minutes components. -/
def offVal (b : Bool) (oh om : Nat) : Int :=
  if b then ((oh * 60 + om : Nat) : Int) else -((oh * 60 + om : Nat) : Int)

theorem parseZoff_colon (b : Bool) (oh om : Nat) (rest : List Char)
    (hh : oh ≤ 99) (hm : om ≤ 99) :
    parseZoff (signChar b :: (padN 2 oh ++ ':' :: (padN 2 om ++ rest)))
      = some (offVal b oh om, rest) := by
  have h1 : parseFixed 2 (padN 2 oh ++ ':' :: (padN 2 om ++ rest))
      = some (oh, ':' :: (padN 2 om ++ rest)) := parseFixed_padN 2 oh _ (by omega)
  have h2 : parseFixed 2 (padN 2 om ++ rest) = some (om, rest) :=
    parseFixed_padN 2 om _ (by omega)
  cases b <;>
    simp [parseZoff, signChar, h1, h2, offVal, List.head?, List.tail]

theorem parseZoff_plain (b : Bool) (oh om : Nat) (rest : List Char)
    (hh : oh ≤ 99) (hm : om ≤ 99) :
    parseZoff (signChar b :: (padN 2 oh ++ (padN 2 om ++ rest)))
      = some (offVal b oh om, rest) := by
  have h2 : parseFixed 2 (padN 2 om ++ rest) = some (om, rest) :=
    parseFixed_padN 2 om _ (by omega)
  rw [padN_two om hm] at h2 ⊢
  have h1 : parseFixed 2 (padN 2 oh ++ (digitChar (om / 10) :: digitChar (om % 10) :: rest))
      = some (oh, digitChar (om / 10) :: digitChar (om % 10) :: rest) :=
    parseFixed_padN 2 oh _ (by omega)
  have hcolon : digitChar (om / 10) ≠ ':' := digitChar_ne_colon (om / 10) (by omega)
  simp only [List.cons_append, List.nil_append] at h2
  cases b <;>
    simp [parseZoff, signChar, h1, h2, offVal, List.head?, hcolon]

/-! ### Calendar arithmetic

Python `date` objects compare chronologically; for valid dates this is the
lexicographic order on `(year, month, day)`.  `timedelta(days = n)` shifts
a date by `n` calendar days; we convert through a day count (proleptic
Gregorian, Hinnant's civil-from-days algorithm, as `date.toordinal` does up
to an additive constant). -/

/-- Leap year as in the Gregorian calendar (`calendar.isleap`). -/
def isLeap (y : Nat) : Bool := (y % 4 = 0 && y % 100 ≠ 0) || y % 400 = 0

/-- Days in a month, used by the `datetime` constructor's validation. -/
def daysInMonth (y m : Nat) : Nat :=
  if m = 2 then (if isLeap y then 29 else 28)
  else if m = 4 || m = 6 || m = 9 || m = 11 then 30
  else 31

/-- Day count of a civil date (days since 1970-01-01, can be negative). -/
def daysFromCivil (y m d : Int) : Int :=
  let y' := if m ≤ 2 then y - 1 else y
  let era := (if 0 ≤ y' then y' else y' - 399) / 400
  let yoe := y' - era * 400
  let mp := (m + 9) % 12
  let doy := (153 * mp + 2) / 5 + d - 1
  let doe := yoe * 365 + yoe / 4 - yoe / 100 + doy
  era * 146097 + doe - 719468

/-- Civil date of a day count (inverse of `daysFromCivil`). -/
def civilFromDays (z : Int) : Int × Int × Int :=
  let z' := z + 719468
  let era := (if 0 ≤ z' then z' else z' - 146096) / 146097
  let doe := z' - era * 146097
  let yoe := (doe - doe / 1460 + doe / 36524 - doe / 146096) / 365
  let y := yoe + era * 400
  let doy := doe - (365 * yoe + yoe / 4 - yoe / 100)
  let mp := (5 * doy + 2) / 153
  let d := doy - (153 * mp + 2) / 5 + 1
  let m := mp + (if mp < 10 then 3 else -9)
  (if m ≤ 2 then y + 1 else y, m, d)

/-- A Python `date` value. -/
structure PyDate where
  year : Nat
  month : Nat
  day : Nat
  deriving DecidableEq

/-- Python `date` ordering (lexicographic on the components, which agrees
with chronological order for in-range dates). -/
def PyDate.leB (a b : PyDate) : Bool :=
  if a.year ≠ b.year then a.year < b.year
  else if a.month ≠ b.month then a.month < b.month
  else a.day ≤ b.day

/-- `d + timedelta(days = n)` on dates. -/
def PyDate.addDays (a : PyDate) (n : Int) : PyDate :=
  let r := civilFromDays (daysFromCivil a.year a.month a.day + n)
  ⟨r.1.toNat, r.2.1.toNat, r.2.2.toNat⟩

/-- A Python `datetime` value: wall-clock fields plus an optional UTC
offset in minutes.  `tz = none` models a naive datetime. -/
structure PyDateTime where
  year : Nat
  month : Nat
  day : Nat
  hour : Nat
  minute : Nat
  second : Nat
  microsecond : Nat
  tz : Option Int
  deriving DecidableEq

/-- `datetime.date()`: the wall-clock calendar day of the value, in its own
offset (no conversion to UTC happens). -/
def PyDateTime.dateOf (dt : PyDateTime) : PyDate := ⟨dt.year, dt.month, dt.day⟩

/-- The instant denoted by an aware datetime, in microseconds since the
epoch; used for Python's aware `<` comparison.  (For a naive value the
offset defaults to zero, but every use below first checks awareness, since
Python raises `TypeError` on a naive/aware comparison.) -/
def PyDateTime.instantOf (dt : PyDateTime) : Int :=
  daysFromCivil dt.year dt.month dt.day * 86400000000
    + ((dt.hour * 3600 + dt.minute * 60 + dt.second : Nat) : Int) * 1000000
    + (dt.microsecond : Int) - dt.tz.getD 0 * 60000000

/-- `(dt + timedelta(days = n)).date()` for a datetime whose time-of-day
fields stay fixed: only the calendar day moves. -/
def PyDateTime.dateAfterDays (dt : PyDateTime) (n : Int) : PyDate :=
  dt.dateOf.addDays n

/-! ### `_parse_ticktick_date` (server.py lines 522-571)

The source tries, in order: `strptime` with `"%Y-%m-%dT%H:%M:%S.%f%z"`;
offset normalization (`±HHMM` → `±HH:MM`) followed by `strptime` with
`"%Y-%m-%dT%H:%M:%S%z"`; then `datetime.fromisoformat` after rewriting a
trailing `±0000` and replacing every `Z` with `+00:00`.  All exceptions are
caught and turned into `None`. -/

/-- `strptime(s, "%Y-%m-%dT%H:%M:%S.%f%z")`: the regex match plus the
`datetime` constructor's range validation (year from 1, day fitting the
month; the other field ranges are enforced by the regex itself). -/
def strptimeFracZ (cs : List Char) : Option PyDateTime := do
  let (y, cs) ← parseFixed 4 cs
  let cs ← expectChar '-' cs
  let (mo, cs) ← parseFld 1 12 1 9 cs
  let cs ← expectChar '-' cs
  let (d, cs) ← parseFld 1 31 1 9 cs
  let cs ← expectChar 'T' cs
  let (h, cs) ← parseFld 0 23 0 9 cs
  let cs ← expectChar ':' cs
  let (mi, cs) ← parseFld 0 59 0 9 cs
  let cs ← expectChar ':' cs
  let (s, cs) ← parseFld 0 59 0 9 cs
  let cs ← expectChar '.' cs
  let (us, cs) ← parseFrac cs
  let (off, cs) ← parseZoff cs
  if cs = [] ∧ 1 ≤ y ∧ d ≤ daysInMonth y mo then
    some ⟨y, mo, d, h, mi, s, us, some off⟩
  else none

/-- `strptime(s, "%Y-%m-%dT%H:%M:%S%z")`. -/
def strptimeSecZ (cs : List Char) : Option PyDateTime := do
  let (y, cs) ← parseFixed 4 cs
  let cs ← expectChar '-' cs
  let (mo, cs) ← parseFld 1 12 1 9 cs
  let cs ← expectChar '-' cs
  let (d, cs) ← parseFld 1 31 1 9 cs
  let cs ← expectChar 'T' cs
  let (h, cs) ← parseFld 0 23 0 9 cs
  let cs ← expectChar ':' cs
  let (mi, cs) ← parseFld 0 59 0 9 cs
  let cs ← expectChar ':' cs
  let (s, cs) ← parseFld 0 59 0 9 cs
  let (off, cs) ← parseZoff cs
  if cs = [] ∧ 1 ≤ y ∧ d ≤ daysInMonth y mo then
    some ⟨y, mo, d, h, mi, s, 0, some off⟩
  else none

/-- Lines 546-555: when the fifth character from the end is a sign and the
last four are digits, rewrite the trailing `±HHMM` into `±HH:MM`. -/
def normalizeTz (cs : List Char) : List Char :=
  if 5 < cs.length then
    let tzPart := cs.drop (cs.length - 5)
    if tzPart.headD ' ' = '+' || tzPart.headD ' ' = '-' then
      if tzPart.length = 5 && (tzPart.drop 1).all isDigit then
        cs.take (cs.length - 5)
          ++ [tzPart.headD ' '] ++ (tzPart.drop 1).take 2 ++ [':'] ++ (tzPart.drop 1).drop 2
      else cs
    else cs
  else cs

/-- Lines 564-566: `endswith(('+0000', '-0000'))` → trailing `±00:00`. -/
def fixupZeroOffset (cs : List Char) : List Char :=
  let tl := cs.drop (cs.length - 5)
  if tl = ['+', '0', '0', '0', '0'] || tl = ['-', '0', '0', '0', '0'] then
    cs.take (cs.length - 5) ++ tl.take 1 ++ ['0', '0', ':', '0', '0']
  else cs

/-- `.replace('Z', '+00:00')`. -/
def replaceZ (cs : List Char) : List Char :=
  cs.flatMap (fun c => if c = 'Z' then ['+', '0', '0', ':', '0', '0'] else [c])

/-- Tail of `datetime.fromisoformat` once time fields are known: an
optional offset must fill the rest of the input; no offset leaves the
result naive (`tz = none`). -/
def pyIsoFinish (y mo d h mi s us : Nat) (cs : List Char) : Option PyDateTime :=
  if h ≤ 23 && mi ≤ 59 && s ≤ 59 then
    match cs with
    | [] => some ⟨y, mo, d, h, mi, s, us, none⟩
    | _ =>
      match parseZoff cs with
      | some (off, []) => some ⟨y, mo, d, h, mi, s, us, some off⟩
      | _ => none
  else none

/-- Time-of-day part of `fromisoformat`, after the `T` separator:
`HH[:MM[:SS[.ffffff]]]` followed by the optional offset. -/
def pyFromIsoAfterT (y mo d : Nat) (cs : List Char) : Option PyDateTime := do
  let (h, cs) ← parseFixed 2 cs
  match cs with
  | ':' :: cs2 => do
    let (mi, cs3) ← parseFixed 2 cs2
    match cs3 with
    | ':' :: cs4 => do
      let (s, cs5) ← parseFixed 2 cs4
      match cs5 with
      | '.' :: cs6 => do
        let (us, cs7) ← parseFrac cs6
        pyIsoFinish y mo d h mi s us cs7
      | _ => pyIsoFinish y mo d h mi s 0 cs5
    | _ => pyIsoFinish y mo d h mi 0 0 cs3
  | _ => pyIsoFinish y mo d h 0 0 0 cs

/-- `datetime.fromisoformat` (the slice relevant here: extended-format
date, optional `T`-separated time, optional offset; a date or datetime
without offset parses to a naive value).  CPython also accepts compact
digit forms and other separators, none of which the fallback in
`_parse_ticktick_date` can receive from TickTick data. -/
def pyFromIso (cs : List Char) : Option PyDateTime := do
  let (y, cs) ← parseFixed 4 cs
  let cs ← expectChar '-' cs
  let (mo, cs) ← parseFixed 2 cs
  let cs ← expectChar '-' cs
  let (d, cs) ← parseFixed 2 cs
  if 1 ≤ y && 1 ≤ mo && mo ≤ 12 && 1 ≤ d && d ≤ daysInMonth y mo then
    match cs with
    | [] => some ⟨y, mo, d, 0, 0, 0, 0, none⟩
    | 'T' :: cs => pyFromIsoAfterT y mo d cs
    | _ => none
  else none

/-- `_parse_ticktick_date`: `None`/empty input short-circuits to `None`,
then the ordered fallback chain; never raises (the embedding is total). -/
def parseTickTickDate : Option String → Option PyDateTime
  | none => none
  | some str =>
    let cs := str.data
    if cs = [] then none
    else
      match strptimeFracZ cs with
      | some dt => some dt
      | none =>
        let n1 := normalizeTz cs
        match strptimeSecZ n1 with
        | some dt => some dt
        | none => pyFromIso (replaceZ (fixupZeroOffset n1))

/-! ### Rendered ISO-like timestamps (for the offset-form equivalence) -/

/-- The components of a rendered timestamp: date and time fields,
microseconds, and a signed `HH`/`MM` offset. -/
structure TSComp where
  y : Nat
  mo : Nat
  d : Nat
  h : Nat
  mi : Nat
  s : Nat
  us : Nat
  sgn : Bool
  oh : Nat
  om : Nat
  deriving DecidableEq

/-- In-range components: a timestamp the remote service could emit. -/
def TSComp.valid (c : TSComp) : Prop :=
  1 ≤ c.y ∧ c.y ≤ 9999 ∧ 1 ≤ c.mo ∧ c.mo ≤ 12 ∧ 1 ≤ c.d ∧ c.d ≤ daysInMonth c.y c.mo
    ∧ c.h ≤ 23 ∧ c.mi ≤ 59 ∧ c.s ≤ 59 ∧ c.us ≤ 999999 ∧ c.oh ≤ 23 ∧ c.om ≤ 59

instance : DecidablePred TSComp.valid := fun c => by
  unfold TSComp.valid
  infer_instance

/-- `YYYY-MM-DDTHH:MM:SS` followed by `tail`. -/
def renderBaseThen (c : TSComp) (tail : List Char) : List Char :=
  padN 4 c.y ++ '-' :: (padN 2 c.mo ++ '-' :: (padN 2 c.d ++ 'T' :: (padN 2 c.h
    ++ ':' :: (padN 2 c.mi ++ ':' :: (padN 2 c.s ++ tail)))))

/-- Offset in colon form `±HH:MM`, followed by `tail`. -/
def renderOffColon (c : TSComp) (tail : List Char) : List Char :=
  signChar c.sgn :: (padN 2 c.oh ++ ':' :: (padN 2 c.om ++ tail))

/-- Offset in colonless form `±HHMM`, followed by `tail`. -/
def renderOffPlain (c : TSComp) (tail : List Char) : List Char :=
  signChar c.sgn :: (padN 2 c.oh ++ (padN 2 c.om ++ tail))

/-- `YYYY-MM-DDTHH:MM:SS.ffffff±HH:MM`. -/
def renderFracColon (c : TSComp) : List Char :=
  renderBaseThen c ('.' :: (padN 6 c.us ++ renderOffColon c []))

/-- `YYYY-MM-DDTHH:MM:SS.ffffff±HHMM`. -/
def renderFracPlain (c : TSComp) : List Char :=
  renderBaseThen c ('.' :: (padN 6 c.us ++ renderOffPlain c []))

/-- `YYYY-MM-DDTHH:MM:SS±HH:MM`. -/
def renderSecColon (c : TSComp) : List Char :=
  renderBaseThen c (renderOffColon c [])

/-- `YYYY-MM-DDTHH:MM:SS±HHMM`. -/
def renderSecPlain (c : TSComp) : List Char :=
  renderBaseThen c (renderOffPlain c [])

/-- The datetime all four renderings denote (microseconds included). -/
def TSComp.dtFrac (c : TSComp) : PyDateTime :=
  ⟨c.y, c.mo, c.d, c.h, c.mi, c.s, c.us, some (offVal c.sgn c.oh c.om)⟩

/-- The datetime of the fraction-less renderings (`microsecond = 0`). -/
def TSComp.dtSec (c : TSComp) : PyDateTime :=
  ⟨c.y, c.mo, c.d, c.h, c.mi, c.s, 0, some (offVal c.sgn c.oh c.om)⟩

theorem expectChar_cons (c : Char) (rest : List Char) :
    expectChar c (c :: rest) = some rest := by
  simp [expectChar]

theorem expectChar_cons_ne (c x : Char) (rest : List Char) (h : x ≠ c) :
    expectChar c (x :: rest) = none := by
  simp [expectChar, h]

theorem daysInMonth_le_31 (y m : Nat) : daysInMonth y m ≤ 31 := by
  unfold daysInMonth
  split
  · split <;> omega
  · split <;> omega

theorem renderBaseThen_append (c : TSComp) (t : List Char) :
    renderBaseThen c t = renderBaseThen c [] ++ t := by
  simp [renderBaseThen, List.append_assoc]

theorem renderBaseThen_ne_nil (c : TSComp) (tail : List Char) : renderBaseThen c tail ≠ [] := by
  unfold renderBaseThen
  intro hcontra
  have h4 := padN_length 4 c.y
  rcases List.append_eq_nil.mp hcontra with ⟨hnl, _⟩
  rw [hnl] at h4
  simp at h4

theorem signChar_eq_or (b : Bool) : signChar b = '+' ∨ signChar b = '-' := by
  cases b <;> simp [signChar]

theorem signChar_ne_dot (b : Bool) : signChar b ≠ '.' := by
  cases b <;> decide

set_option maxHeartbeats 2000000 in
/-- Evaluating `strptime "%Y-%m-%dT%H:%M:%S.%f%z"` on a canonically rendered
`YYYY-MM-DDTHH:MM:SS` prefix: the remaining computation only depends on the
tail after the seconds field. -/
theorem strptimeFracZ_base (c : TSComp) (tail : List Char)
    (h1 : 1 ≤ c.y) (h2 : c.y ≤ 9999) (h3 : 1 ≤ c.mo) (h4 : c.mo ≤ 12)
    (h5 : 1 ≤ c.d) (h6 : c.d ≤ daysInMonth c.y c.mo)
    (h7 : c.h ≤ 23) (h8 : c.mi ≤ 59) (h9 : c.s ≤ 59) :
    strptimeFracZ (renderBaseThen c tail) =
      (expectChar '.' tail).bind (fun cs =>
        (parseFrac cs).bind (fun r1 =>
          (parseZoff r1.2).bind (fun r2 =>
            if r2.2 = [] ∧ 1 ≤ c.y ∧ c.d ≤ daysInMonth c.y c.mo then
              some ⟨c.y, c.mo, c.d, c.h, c.mi, c.s, r1.1, some r2.1⟩
            else none))) := by
  simp only [strptimeFracZ, renderBaseThen, Option.bind_eq_bind]
  rw [parseFixed_padN 4 c.y _ (by omega)]
  simp only [Option.some_bind, expectChar_cons]
  rw [parseFld_padTwo 1 12 1 9 c.mo _ (by omega) h3 h4]
  simp only [Option.some_bind, expectChar_cons]
  rw [parseFld_padTwo 1 31 1 9 c.d _ (by have := daysInMonth_le_31 c.y c.mo; omega) h5
    (le_trans h6 (daysInMonth_le_31 c.y c.mo))]
  simp only [Option.some_bind, expectChar_cons]
  rw [parseFld_padTwo 0 23 0 9 c.h _ (by omega) (by omega) h7]
  simp only [Option.some_bind, expectChar_cons]
  rw [parseFld_padTwo 0 59 0 9 c.mi _ (by omega) (by omega) h8]
  simp only [Option.some_bind, expectChar_cons]
  rw [parseFld_padTwo 0 59 0 9 c.s _ (by omega) (by omega) h9]
  simp only [Option.some_bind, expectChar_cons]

set_option maxHeartbeats 2000000 in
/-- The same for `strptime "%Y-%m-%dT%H:%M:%S%z"`. -/
theorem strptimeSecZ_base (c : TSComp) (tail : List Char)
    (h1 : 1 ≤ c.y) (h2 : c.y ≤ 9999) (h3 : 1 ≤ c.mo) (h4 : c.mo ≤ 12)
    (h5 : 1 ≤ c.d) (h6 : c.d ≤ daysInMonth c.y c.mo)
    (h7 : c.h ≤ 23) (h8 : c.mi ≤ 59) (h9 : c.s ≤ 59) :
    strptimeSecZ (renderBaseThen c tail) =
      (parseZoff tail).bind (fun r2 =>
        if r2.2 = [] ∧ 1 ≤ c.y ∧ c.d ≤ daysInMonth c.y c.mo then
          some ⟨c.y, c.mo, c.d, c.h, c.mi, c.s, 0, some r2.1⟩
        else none) := by
  simp only [strptimeSecZ, renderBaseThen, Option.bind_eq_bind]
  rw [parseFixed_padN 4 c.y _ (by omega)]
  simp only [Option.some_bind, expectChar_cons]
  rw [parseFld_padTwo 1 12 1 9 c.mo _ (by omega) h3 h4]
  simp only [Option.some_bind, expectChar_cons]
  rw [parseFld_padTwo 1 31 1 9 c.d _ (by have := daysInMonth_le_31 c.y c.mo; omega) h5
    (le_trans h6 (daysInMonth_le_31 c.y c.mo))]
  simp only [Option.some_bind, expectChar_cons]
  rw [parseFld_padTwo 0 23 0 9 c.h _ (by omega) (by omega) h7]
  simp only [Option.some_bind, expectChar_cons]
  rw [parseFld_padTwo 0 59 0 9 c.mi _ (by omega) (by omega) h8]
  simp only [Option.some_bind, expectChar_cons]
  rw [parseFld_padTwo 0 59 0 9 c.s _ (by omega) (by omega) h9]
  simp only [Option.some_bind, expectChar_cons]

theorem strptimeFracZ_fracColon (c : TSComp) (h : c.valid) :
    strptimeFracZ (renderFracColon c) = some c.dtFrac := by
  obtain ⟨h1, h2, h3, h4, h5, h6, h7, h8, h9, h10, h11, h12⟩ := h
  rw [renderFracColon, strptimeFracZ_base c _ h1 h2 h3 h4 h5 h6 h7 h8 h9]
  rw [expectChar_cons]
  simp only [Option.some_bind]
  rw [parseFrac_padSix c.us _ h10]
  simp only [Option.some_bind]
  rw [renderOffColon, parseZoff_colon c.sgn c.oh c.om [] (by omega) (by omega)]
  simp only [Option.some_bind]
  rw [if_pos ⟨by trivial, h1, h6⟩]
  rfl

theorem strptimeFracZ_fracPlain (c : TSComp) (h : c.valid) :
    strptimeFracZ (renderFracPlain c) = some c.dtFrac := by
  obtain ⟨h1, h2, h3, h4, h5, h6, h7, h8, h9, h10, h11, h12⟩ := h
  rw [renderFracPlain, strptimeFracZ_base c _ h1 h2 h3 h4 h5 h6 h7 h8 h9]
  rw [expectChar_cons]
  simp only [Option.some_bind]
  rw [parseFrac_padSix c.us _ h10]
  simp only [Option.some_bind]
  rw [renderOffPlain, parseZoff_plain c.sgn c.oh c.om [] (by omega) (by omega)]
  simp only [Option.some_bind]
  rw [if_pos ⟨by trivial, h1, h6⟩]
  rfl

theorem strptimeFracZ_secColon (c : TSComp) (h : c.valid) :
    strptimeFracZ (renderSecColon c) = none := by
  obtain ⟨h1, h2, h3, h4, h5, h6, h7, h8, h9, h10, h11, h12⟩ := h
  rw [renderSecColon, strptimeFracZ_base c _ h1 h2 h3 h4 h5 h6 h7 h8 h9]
  rw [renderOffColon, expectChar_cons_ne '.' _ _ (signChar_ne_dot c.sgn)]
  rfl

theorem strptimeFracZ_secPlain (c : TSComp) (h : c.valid) :
    strptimeFracZ (renderSecPlain c) = none := by
  obtain ⟨h1, h2, h3, h4, h5, h6, h7, h8, h9, h10, h11, h12⟩ := h
  rw [renderSecPlain, strptimeFracZ_base c _ h1 h2 h3 h4 h5 h6 h7 h8 h9]
  rw [renderOffPlain, expectChar_cons_ne '.' _ _ (signChar_ne_dot c.sgn)]
  rfl

theorem strptimeSecZ_secColon (c : TSComp) (h : c.valid) :
    strptimeSecZ (renderSecColon c) = some c.dtSec := by
  obtain ⟨h1, h2, h3, h4, h5, h6, h7, h8, h9, h10, h11, h12⟩ := h
  rw [renderSecColon, strptimeSecZ_base c _ h1 h2 h3 h4 h5 h6 h7 h8 h9]
  rw [renderOffColon, parseZoff_colon c.sgn c.oh c.om [] (by omega) (by omega)]
  simp only [Option.some_bind]
  rw [if_pos ⟨by trivial, h1, h6⟩]
  rfl

theorem normalizeTz_fix (pre : List Char) (sg a b m1 m2 : Char) (hpre : pre ≠ [])
    (hsg : sg = '+' ∨ sg = '-') (ha : isDigit a = true) (hb : isDigit b = true)
    (hm1 : isDigit m1 = true) (hm2 : isDigit m2 = true) :
    normalizeTz (pre ++ [sg, a, b, m1, m2]) = pre ++ [sg, a, b, ':', m1, m2] := by
  have hpos : 0 < pre.length := List.length_pos.mpr hpre
  have hlen : (pre ++ [sg, a, b, m1, m2]).length = pre.length + 5 := by simp
  have hsub : pre.length + 5 - 5 = pre.length := by omega
  simp only [normalizeTz, hlen, hsub, List.drop_left, List.take_left]
  rw [if_pos (show 5 < pre.length + 5 by omega)]
  rcases hsg with h | h <;> subst h <;>
    simp [List.headD, List.all, ha, hb, hm1, hm2]

theorem normalizeTz_keep (pre l5 : List Char) (hlen : l5.length = 5)
    (hs : ¬(l5.headD ' ' = '+' ∨ l5.headD ' ' = '-')) :
    normalizeTz (pre ++ l5) = pre ++ l5 := by
  by_cases hp : 5 < (pre ++ l5).length
  · have hlen2 : (pre ++ l5).length = pre.length + 5 := by simp [hlen]
    have hsub : pre.length + 5 - 5 = pre.length := by omega
    simp only [normalizeTz, hlen2, hsub, List.drop_left, List.take_left]
    rw [if_pos (by omega : 5 < pre.length + 5)]
    rw [if_neg (by simpa using hs)]
  · simp only [normalizeTz]
    rw [if_neg hp]

theorem normalizeTz_secColon (c : TSComp) (hoh : c.oh ≤ 99) (hom : c.om ≤ 99) :
    normalizeTz (renderSecColon c) = renderSecColon c := by
  have hd : renderSecColon c
      = (renderBaseThen c [] ++ [signChar c.sgn])
        ++ [digitChar (c.oh / 10), digitChar (c.oh % 10), ':',
            digitChar (c.om / 10), digitChar (c.om % 10)] := by
    rw [renderSecColon, renderBaseThen_append]
    simp [renderOffColon, padN_two c.oh hoh, padN_two c.om hom]
  rw [hd, normalizeTz_keep]
  · rfl
  · intro hcontra
    rcases hcontra with h | h
    · exact digitChar_ne_plus (c.oh / 10) (by omega) (by simpa [List.headD] using h)
    · exact digitChar_ne_minus (c.oh / 10) (by omega) (by simpa [List.headD] using h)

theorem normalizeTz_secPlain (c : TSComp) (hoh : c.oh ≤ 99) (hom : c.om ≤ 99) :
    normalizeTz (renderSecPlain c) = renderSecColon c := by
  have hd : renderSecPlain c
      = renderBaseThen c []
        ++ [signChar c.sgn, digitChar (c.oh / 10), digitChar (c.oh % 10),
            digitChar (c.om / 10), digitChar (c.om % 10)] := by
    rw [renderSecPlain, renderBaseThen_append]
    simp [renderOffPlain, padN_two c.oh hoh, padN_two c.om hom]
  rw [hd, normalizeTz_fix _ _ _ _ _ _ (renderBaseThen_ne_nil c [])
    (signChar_eq_or c.sgn)
    (isDigit_digitChar _ (by omega)) (isDigit_digitChar _ (by omega))
    (isDigit_digitChar _ (by omega)) (isDigit_digitChar _ (by omega))]
  simp [renderSecColon, renderOffColon, renderBaseThen, padN_two c.oh hoh,
    padN_two c.om hom, List.append_assoc]

theorem parseTickTickDate_mk (cs : List Char) :
    parseTickTickDate (some (String.mk cs)) =
      (if cs = [] then none
       else
        match strptimeFracZ cs with
        | some dt => some dt
        | none =>
          match strptimeSecZ (normalizeTz cs) with
          | some dt => some dt
          | none => pyFromIso (replaceZ (fixupZeroOffset (normalizeTz cs)))) := rfl

theorem parseTT_fracColon (c : TSComp) (h : c.valid) :
    parseTickTickDate (some (String.mk (renderFracColon c))) = some c.dtFrac := by
  have hne : renderFracColon c ≠ [] := renderBaseThen_ne_nil c _
  rw [parseTickTickDate_mk, if_neg hne, strptimeFracZ_fracColon c h]

theorem parseTT_fracPlain (c : TSComp) (h : c.valid) :
    parseTickTickDate (some (String.mk (renderFracPlain c))) = some c.dtFrac := by
  have hne : renderFracPlain c ≠ [] := renderBaseThen_ne_nil c _
  rw [parseTickTickDate_mk, if_neg hne, strptimeFracZ_fracPlain c h]

theorem parseTT_secColon (c : TSComp) (h : c.valid) :
    parseTickTickDate (some (String.mk (renderSecColon c))) = some c.dtSec := by
  have hne : renderSecColon c ≠ [] := renderBaseThen_ne_nil c _
  obtain ⟨h1, h2, h3, h4, h5, h6, h7, h8, h9, h10, h11, h12⟩ := h
  rw [parseTickTickDate_mk, if_neg hne,
    strptimeFracZ_secColon c ⟨h1, h2, h3, h4, h5, h6, h7, h8, h9, h10, h11, h12⟩,
    normalizeTz_secColon c (by omega) (by omega),
    strptimeSecZ_secColon c ⟨h1, h2, h3, h4, h5, h6, h7, h8, h9, h10, h11, h12⟩]

theorem parseTT_secPlain (c : TSComp) (h : c.valid) :
    parseTickTickDate (some (String.mk (renderSecPlain c))) = some c.dtSec := by
  have hne : renderSecPlain c ≠ [] := renderBaseThen_ne_nil c _
  obtain ⟨h1, h2, h3, h4, h5, h6, h7, h8, h9, h10, h11, h12⟩ := h
  rw [parseTickTickDate_mk, if_neg hne,
    strptimeFracZ_secPlain c ⟨h1, h2, h3, h4, h5, h6, h7, h8, h9, h10, h11, h12⟩,
    normalizeTz_secPlain c (by omega) (by omega),
    strptimeSecZ_secColon c ⟨h1, h2, h3, h4, h5, h6, h7, h8, h9, h10, h11, h12⟩]

/-- C4: for every valid timestamp component vector, `_parse_ticktick_date`
parses the colon-offset (`+HH:MM`) and colonless-offset (`+HHMM`)
renderings to the same instant, both with fractional seconds and without;
and when the fractional part is zero, all four encodings of that one
instant parse to equal datetimes. -/
theorem c4_offset_forms (c : TSComp) (h : c.valid) :
    parseTickTickDate (some (String.mk (renderFracColon c)))
        = parseTickTickDate (some (String.mk (renderFracPlain c))) ∧
    parseTickTickDate (some (String.mk (renderSecColon c)))
        = parseTickTickDate (some (String.mk (renderSecPlain c))) ∧
    parseTickTickDate (some (String.mk (renderFracColon c))) = some c.dtFrac ∧
    parseTickTickDate (some (String.mk (renderSecColon c))) = some c.dtSec ∧
    (c.us = 0 →
      parseTickTickDate (some (String.mk (renderFracColon c)))
        = parseTickTickDate (some (String.mk (renderSecPlain c)))) := by
  have hfc := parseTT_fracColon c h
  have hfp := parseTT_fracPlain c h
  have hsc := parseTT_secColon c h
  have hsp := parseTT_secPlain c h
  refine ⟨by rw [hfc, hfp], by rw [hsc, hsp], hfc, hsc, fun h0 => ?_⟩
  rw [hfc, hsp]
  simp [TSComp.dtFrac, TSComp.dtSec, h0]

theorem c4_offset_forms_witness :
    TSComp.valid ⟨2019, 11, 14, 3, 0, 0, 0, true, 0, 0⟩ ∧
    parseTickTickDate (some (String.mk (renderFracColon ⟨2019, 11, 14, 3, 0, 0, 0, true, 0, 0⟩)))
      = parseTickTickDate (some (String.mk (renderSecPlain ⟨2019, 11, 14, 3, 0, 0, 0, true, 0, 0⟩))) :=
  ⟨by decide, (c4_offset_forms ⟨2019, 11, 14, 3, 0, 0, 0, true, 0, 0⟩ (by decide)).2.2.2.2 rfl⟩

/-- C3: `_parse_ticktick_date` maps the missing date and the empty string
to `None` (short-circuited before any parse strategy runs) and garbage to
`None`, and the embedding is a total function, so no exception escapes; but
on the offset-less string `"2024-01-10T12:00:00"` the `fromisoformat`
fallback succeeds with a naive datetime (`tzinfo` absent), so the function
does not always return a timezone-aware datetime or `None` as claimed and
as its own docstring states. -/
theorem c3_parse_never_raises :
    parseTickTickDate none = none ∧
    parseTickTickDate (some "") = none ∧
    parseTickTickDate (some "garbage") = none ∧
    parseTickTickDate (some "2024-01-10T12:00:00")
      = some ⟨2024, 1, 10, 12, 0, 0, 0, none⟩ := by
  refine ⟨rfl, by decide, by decide, by decide⟩

/-! ### Tasks, projects and the date classifiers (server.py lines 573-672)

A Python dict with optional keys becomes a structure of `Option` fields.
Python truthiness of a string field (`if not due_date`) is captured by
`strFalsy`.  Each call of `datetime.now(timezone.utc)` inside a classifier
reads `clock idx` and advances the index, so one run of the filter threads
the index through the classifier calls in evaluation order. -/

/-- A subtask (`item`) dict: `title` and `status` keys. -/
structure Subtask where
  title : Option String
  status : Option Nat
  deriving DecidableEq

/-- A task dict with the keys the filtering core reads (named `TTask`
because Lean's core already has a `Task` type). -/
structure TTask where
  id : Option String
  title : Option String
  content : Option String
  projectId : Option String
  startDate : Option String
  dueDate : Option String
  priority : Option Nat
  status : Option Nat
  items : List Subtask
  deriving DecidableEq

/-- A project dict with the keys the filtering core reads. -/
structure Project where
  id : Option String
  name : Option String
  color : Option String
  viewMode : Option String
  closed : Option Bool
  kind : Option String
  deriving DecidableEq

/-- Python truthiness of an optional string: `None` and `""` are falsy. -/
def strFalsy : Option String → Bool
  | none => true
  | some s => s.data.isEmpty

/-- `_is_task_due_today`: guard on a falsy `dueDate`, parse, then compare
the parsed value's calendar day with `datetime.now(timezone.utc).date()` —
the `now` sample is taken during this call, after a successful parse. -/
def isTaskDueToday (clock : Nat → PyDateTime) (idx : Nat) (task : TTask) : Bool × Nat :=
  if strFalsy task.dueDate then (false, idx)
  else
    match parseTickTickDate task.dueDate with
    | none => (false, idx)
    | some dt => (dt.dateOf = (clock idx).dateOf, idx + 1)

/-- `_is_task_overdue`: as above but comparing full instants with `<`.
Python raises `TypeError` when the parsed value is naive and `now` is
aware; the raise is modelled as `Except.error` with CPython's message. -/
def isTaskOverdue (clock : Nat → PyDateTime) (idx : Nat) (task : TTask) :
    Except String Bool × Nat :=
  if strFalsy task.dueDate then (.ok false, idx)
  else
    match parseTickTickDate task.dueDate with
    | none => (.ok false, idx)
    | some dt =>
      match dt.tz with
      | none => (.error "can't compare offset-naive and offset-aware datetimes", idx + 1)
      | some _ => (.ok (dt.instantOf < (clock idx).instantOf), idx + 1)

/-- `_is_task_due_in_days`: due day equals `(now + timedelta(days)).date()`. -/
def isTaskDueInDays (clock : Nat → PyDateTime) (idx : Nat) (task : TTask) (days : Int) :
    Bool × Nat :=
  if strFalsy task.dueDate then (false, idx)
  else
    match parseTickTickDate task.dueDate with
    | none => (false, idx)
    | some dt => (dt.dateOf = (clock idx).dateAfterDays days, idx + 1)

/-- Substring scan: does `needle` begin at some position of `hay`? -/
def pyInAux : List Char → List Char → Bool
  | needle, [] => needle.isEmpty
  | needle, c :: rest => needle.isPrefixOf (c :: rest) || pyInAux needle rest

/-- Python `in` on strings: substring containment. -/
def pyIn (needle hay : String) : Bool := pyInAux needle.data hay.data

/-- `str.lower()` (the searchable text is ASCII here). -/
def strLower (s : String) : String := ⟨s.data.map Char.toLower⟩

/-- `_task_matches_search`: case-insensitive substring match against the
title, the content, and each subtask title. -/
def taskMatchesSearch (task : TTask) (searchTerm : String) : Bool :=
  let term := strLower searchTerm
  if pyIn term (strLower (task.title.getD "")) then true
  else if pyIn term (strLower (task.content.getD "")) then true
  else task.items.any (fun item => pyIn term (strLower (item.title.getD "")))

/-- The inline `this_week`/`next_7_days` branch of `task_filter`
(server.py lines 812-824): due day within `[today, today + 7]`, both dates
read from the parsed value's own fields and from a `now` sampled here. -/
def weekWindowMatch (clock : Nat → PyDateTime) (idx : Nat) (task : TTask) : Bool × Nat :=
  if strFalsy task.dueDate then (false, idx)
  else
    match parseTickTickDate task.dueDate with
    | none => (false, idx)
    | some dt =>
      let today := (clock idx).dateOf
      let weekFromToday := today.addDays 7
      (today.leB dt.dateOf && dt.dateOf.leB weekFromToday, idx + 1)

/-- The priority clause of `task_filter`: `task.get('priority', 0) == priority`
when a priority filter is given, else always true. -/
def priorityMatch (priority : Option Nat) (task : TTask) : Bool :=
  match priority with
  | none => true
  | some p => task.priority.getD 0 = p

/-- The compiled `task_filter` closure (server.py lines 802-840): date
window AND priority AND text search.  The clock index advances exactly when
a classifier samples `datetime.now`. -/
def taskFilter (dateFilter : String) (priority : Option Nat) (searchTerm : Option String)
    (clock : Nat → PyDateTime) (task : TTask) (idx : Nat) : Except String Bool × Nat :=
  let dm :=
    if dateFilter = "all" then (Except.ok true, idx)
    else if dateFilter = "today" then
      let r := isTaskDueToday clock idx task
      (Except.ok r.1, r.2)
    else if dateFilter = "tomorrow" then
      let r := isTaskDueInDays clock idx task 1
      (Except.ok r.1, r.2)
    else if dateFilter = "overdue" then isTaskOverdue clock idx task
    else if dateFilter = "this_week" || dateFilter = "next_7_days" then
      let r := weekWindowMatch clock idx task
      (Except.ok r.1, r.2)
    else (Except.ok true, idx)
  match dm with
  | (.error e, idx2) => (.error e, idx2)
  | (.ok dateMatch, idx2) =>
    let searchMatch :=
      match searchTerm with
      | none => true
      | some t => taskMatchesSearch task t
    (.ok (dateMatch && priorityMatch priority task && searchMatch), idx2)

/-! ### Rendering and the project scan (server.py lines 52-111, 674-715) -/

/-- `enumerate(xs, start)`. -/
def pyEnumerate {α : Type} (start : Nat) : List α → List (Nat × α)
  | [] => []
  | x :: xs => (start, x) :: pyEnumerate (start + 1) xs

/-- The module-level `PRIORITY_MAP` display names. -/
def priorityName : Nat → Option String
  | 0 => some "None"
  | 1 => some "Low"
  | 3 => some "Medium"
  | 5 => some "High"
  | _ => none

/-- `format_task`. -/
def formatTask (task : TTask) : String :=
  let p := task.priority.getD 0
  "ID: " ++ task.id.getD "No ID" ++ "\n"
    ++ "Title: " ++ task.title.getD "No title" ++ "\n"
    ++ "Project ID: " ++ task.projectId.getD "None" ++ "\n"
    ++ (if strFalsy task.startDate then "" else "Start Date: " ++ task.startDate.getD "" ++ "\n")
    ++ (if strFalsy task.dueDate then "" else "Due Date: " ++ task.dueDate.getD "" ++ "\n")
    ++ "Priority: " ++ (priorityName p).getD (toString p) ++ "\n"
    ++ "Status: " ++ (if task.status = some 2 then "Completed" else "Active") ++ "\n"
    ++ (if strFalsy task.content then "" else "\nContent:\n" ++ task.content.getD "" ++ "\n")
    ++ (if task.items.isEmpty then ""
        else "\nSubtasks (" ++ toString task.items.length ++ "):\n"
          ++ String.join ((pyEnumerate 1 task.items).map (fun it =>
              toString it.1 ++ ". [" ++ (if it.2.status = some 1 then "✓" else "□") ++ "] "
                ++ it.2.title.getD "No title" ++ "\n")))

/-- `format_project`. -/
def formatProject (project : Project) : String :=
  "Name: " ++ project.name.getD "No name" ++ "\n"
    ++ "ID: " ++ project.id.getD "No ID" ++ "\n"
    ++ (if strFalsy project.color then "" else "Color: " ++ project.color.getD "" ++ "\n")
    ++ (if strFalsy project.viewMode then "" else "View Mode: " ++ project.viewMode.getD "" ++ "\n")
    ++ (match project.closed with
        | none => ""
        | some b => "Closed: " ++ (if b then "Yes" else "No") ++ "\n")
    ++ (if strFalsy project.kind then "" else "Kind: " ++ project.kind.getD "" ++ "\n")

/-- Result dict of `get_project_with_data`: on success a task list under
`tasks`, on failure an `error` message and no `tasks` key.  The scan helper
reads only `tasks` (with default `[]`, line 697). -/
structure ProjectData where
  error : Option String
  tasks : Option (List TTask)

/-- One observable call to the external TickTick client. -/
inductive ClientCall where
  | listProjects : ClientCall
  | fetchTasks : String → ClientCall
  deriving DecidableEq

/-- The list comprehension
`[(t, task) for t, task in enumerate(tasks, 1) if filter_func(task)]`:
the filter runs once per task in order, threading its state; an exception
aborts the comprehension. -/
def filterEnum {σ : Type} (fil : TTask → σ → Except String Bool × σ) :
    List (Nat × TTask) → σ → Except String (List (Nat × TTask)) × σ
  | [], s => (.ok [], s)
  | (t, task) :: rest, s =>
    match fil task s with
    | (.error e, s2) => (.error e, s2)
    | (.ok b, s2) =>
      match filterEnum fil rest s2 with
      | (.error e, s3) => (.error e, s3)
      | (.ok l, s3) => (.ok (if b then (t, task) :: l else l), s3)

/-- The `for i, project in enumerate(projects, 1)` loop of
`_get_project_tasks_by_filter`: skip closed projects, fetch the rest
(every fetch is recorded in the returned call list), render a zero-match
line for empty task lists, else the filtered tasks. -/
def projectLoop {σ : Type} (client : String → ProjectData)
    (fil : TTask → σ → Except String Bool × σ) (filterName : String) :
    List (Nat × Project) → String → σ → Except String String × List ClientCall × σ
  | [], acc, s => (.ok acc, [], s)
  | (i, project) :: rest, acc, s =>
    if project.closed.getD false then projectLoop client fil filterName rest acc s
    else
      let projectId := project.id.getD "No ID"
      let projectData := client projectId
      let tasks := projectData.tasks.getD []
      if tasks.isEmpty then
        let acc2 := acc ++ "Project " ++ toString i ++ ":\n" ++ formatProject project
          ++ "With 0 tasks that are to be '" ++ filterName ++ "' in this project :\n\n\n"
        let r := projectLoop client fil filterName rest acc2 s
        (r.1, .fetchTasks projectId :: r.2.1, r.2.2)
      else
        match filterEnum fil (pyEnumerate 1 tasks) s with
        | (.error e, s2) => (.error e, [.fetchTasks projectId], s2)
        | (.ok filtered, s2) =>
          let acc2 := acc ++ "Project " ++ toString i ++ ":\n" ++ formatProject project
            ++ "With " ++ toString filtered.length ++ " tasks that are to be '" ++ filterName
            ++ "' in this project :\n"
            ++ String.join (filtered.map (fun p =>
                "Task " ++ toString p.1 ++ ":\n" ++ formatTask p.2 ++ "\n"))
            ++ "\n\n"
          let r := projectLoop client fil filterName rest acc2 s2
          (r.1, .fetchTasks projectId :: r.2.1, r.2.2)

/-- `_get_project_tasks_by_filter` (server.py lines 674-715). -/
def getProjectTasksByFilter {σ : Type} (projects : List Project)
    (fil : TTask → σ → Except String Bool × σ) (filterName : String)
    (client : String → ProjectData) (s : σ) :
    Except String String × List ClientCall × σ :=
  if projects.isEmpty then (.ok "No projects found.", [], s)
  else
    projectLoop client fil filterName (pyEnumerate 1 projects)
      ("Found " ++ toString projects.length ++ " projects:\n\n") s

/-! ### `filter_tasks` (server.py lines 719-859)

The tool is modelled in its steady state: the module-level client handle is
already initialized (as `main` guarantees before serving), so the function
starts at its validation block.  The client collaborator is a record of the
`get_projects` outcome and the per-project `get_project_with_data`
behaviour; every call made to it is logged in the result. -/

/-- ASCII whitespace, as stripped by `str.strip()`. -/
def isSpace (c : Char) : Bool :=
  c = ' ' || c = '\t' || c = '\n' || c = '\r' || c = '\x0b' || c = '\x0c'

/-- `str.strip()`: drop leading and trailing whitespace. -/
def pyStrip (s : String) : String :=
  ⟨((s.data.dropWhile isSpace).reverse.dropWhile isSpace).reverse⟩

/-- The external TickTick client collaborator. -/
structure Client where
  projectsResult : Except String (List Project)
  projectData : String → ProjectData

/-- `valid_date_filters` (line 764). -/
def validDateFilters : List String :=
  ["all", "today", "tomorrow", "overdue", "this_week", "next_7_days"]

/-- `PRIORITY_MAP` keys. -/
def priorityKeys : List Nat := [0, 1, 3, 5]

/-- `PRIORITY_MAP[priority]` for the filter label; only reached for
validated priorities, so the catch-all is dead code. -/
def priorityLabel (p : Nat) : String := (priorityName p).getD ""

/-- The project-resolution loop of `filter_tasks` (lines 785-789): first
project whose id matches, or whose lowercased name is `inbox` when the
`inbox` keyword was requested. -/
def resolveProject (projects : List Project) (pid : String) : Option Project :=
  projects.find? (fun p =>
    p.id = some pid || (pid = "inbox" && strLower (p.name.getD "") = "inbox"))

/-- The filter-description label (lines 843-853). -/
def buildFilterName (dateFilter : String) (priority : Option Nat)
    (searchTerm : Option String) (projectId : Option String) : String :=
  let parts : List String :=
    (if dateFilter ≠ "all" then [dateFilter] else [])
    ++ (match priority with
        | none => []
        | some p => ["priority " ++ priorityLabel p])
    ++ (match searchTerm with
        | none => []
        | some t => if t.data.isEmpty then [] else ["matching '" ++ t ++ "'"])
    ++ (match projectId with
        | none => []
        | some pid => if pid.data.isEmpty then [] else ["in project '" ++ pid ++ "'"])
  if parts.isEmpty then "all tasks" else String.intercalate " and " parts

/-- `filter_tasks`: validation first, then project resolution, then the
scan with the compiled `task_filter`; returns the rendered report (or the
error/validation message) together with the list of client calls made. -/
def filterTasks (client : Client) (clock : Nat → PyDateTime) (dateFilter : String)
    (priority : Option Nat) (searchTerm : Option String) (projectId : Option String) :
    String × List ClientCall :=
  if ¬ validDateFilters.contains dateFilter then
    ("Invalid date_filter. Valid values: all, today, tomorrow, overdue, this_week, next_7_days",
      [])
  else if (match priority with | none => false | some p => ¬ priorityKeys.contains p) then
    ("Invalid priority. Valid values: [0, 1, 3, 5]", [])
  else if (match searchTerm with | none => false | some t => (pyStrip t).data.isEmpty) then
    ("Search term cannot be empty.", [])
  else
    let finish := fun (projects : List Project) =>
      match getProjectTasksByFilter projects
          (fun task s => taskFilter dateFilter priority searchTerm clock task s)
          (buildFilterName dateFilter priority searchTerm projectId)
          client.projectData 0 with
      | (.ok out, calls, _) => (out, ClientCall.listProjects :: calls)
      | (.error e, calls, _) =>
        ("Error filtering tasks: " ++ e, ClientCall.listProjects :: calls)
    match projectId with
    | some pid =>
      if pid.data.isEmpty then
        match client.projectsResult with
        | .error e => ("Error fetching projects: " ++ e, [.listProjects])
        | .ok projects => finish projects
      else
        match client.projectsResult with
        | .error e => ("Error fetching projects: " ++ e, [.listProjects])
        | .ok projectsData =>
          match resolveProject projectsData pid with
          | none => ("Project '" ++ pid ++ "' not found.", [.listProjects])
          | some project => finish [project]
    | none =>
      match client.projectsResult with
      | .error e => ("Error fetching projects: " ++ e, [.listProjects])
      | .ok projects => finish projects

/-! ### Claim theorems -/

/-- C5: when a task's `dueDate` is absent (or empty, hence falsy) or its
string does not parse, each of `_is_task_due_today`, `_is_task_overdue`
and `_is_task_due_in_days` returns false — absence of date information
never counts as a match, for any clock and any day offset. -/
theorem c5_absent_or_unparseable_never_matches (clock : Nat → PyDateTime) (idx : Nat)
    (task : TTask) (days : Int)
    (h : task.dueDate = none ∨ parseTickTickDate task.dueDate = none) :
    (isTaskDueToday clock idx task).1 = false ∧
    (isTaskOverdue clock idx task).1 = .ok false ∧
    (isTaskDueInDays clock idx task days).1 = false := by
  by_cases hf : strFalsy task.dueDate = true
  · simp [isTaskDueToday, isTaskOverdue, isTaskDueInDays, hf]
  · have hfb : strFalsy task.dueDate = false := by
      revert hf; cases strFalsy task.dueDate <;> simp
    have hp : parseTickTickDate task.dueDate = none := by
      rcases h with h | h
      · rw [h] at hfb; simp [strFalsy] at hfb
      · exact h
    simp [isTaskDueToday, isTaskOverdue, isTaskDueInDays, hfb, hp]

theorem c5_absent_or_unparseable_never_matches_witness :
    ((⟨none, none, none, none, none, none, none, none, []⟩ : TTask).dueDate = none ∨
      parseTickTickDate (⟨none, none, none, none, none, none, none, none, []⟩ : TTask).dueDate
        = none) ∧
    ((isTaskDueToday (fun _ => ⟨2024, 1, 10, 12, 0, 0, 0, some 0⟩) 0
        ⟨none, none, none, none, none, none, none, none, []⟩).1 = false ∧
      (isTaskOverdue (fun _ => ⟨2024, 1, 10, 12, 0, 0, 0, some 0⟩) 0
        ⟨none, none, none, none, none, none, none, none, []⟩).1 = .ok false ∧
      (isTaskDueInDays (fun _ => ⟨2024, 1, 10, 12, 0, 0, 0, some 0⟩) 0
        ⟨none, none, none, none, none, none, none, none, []⟩ 1).1 = false) :=
  ⟨Or.inl rfl,
    c5_absent_or_unparseable_never_matches (fun _ => ⟨2024, 1, 10, 12, 0, 0, 0, some 0⟩) 0
      ⟨none, none, none, none, none, none, none, none, []⟩ 1 (Or.inl rfl)⟩

/-- C10: a task with no `priority` key satisfies the priority clause of an
explicit `priority = 0` filter (the missing field defaults to `0`), just as
a task whose field equals `0` does; with `date_filter = "all"` and no
search term, the whole compiled predicate accepts such a task. -/
theorem c10_missing_priority_matches_zero (clock : Nat → PyDateTime) (idx : Nat)
    (task task0 : TTask) (hmiss : task.priority = none) (h0 : task0.priority = some 0) :
    priorityMatch (some 0) task = true ∧
    priorityMatch (some 0) task0 = true ∧
    (taskFilter "all" (some 0) none clock task idx).1 = .ok true := by
  refine ⟨by simp [priorityMatch, hmiss], by simp [priorityMatch, h0], ?_⟩
  simp [taskFilter, priorityMatch, hmiss]

theorem c10_missing_priority_matches_zero_witness :
    (⟨none, none, none, none, none, none, none, none, []⟩ : TTask).priority = none ∧
    (⟨none, none, none, none, none, none, some 0, none, []⟩ : TTask).priority = some 0 ∧
    (priorityMatch (some 0) ⟨none, none, none, none, none, none, none, none, []⟩ = true ∧
      priorityMatch (some 0) ⟨none, none, none, none, none, none, some 0, none, []⟩ = true ∧
      (taskFilter "all" (some 0) none (fun _ => ⟨2024, 1, 10, 12, 0, 0, 0, some 0⟩)
        ⟨none, none, none, none, none, none, none, none, []⟩ 0).1 = .ok true) :=
  ⟨rfl, rfl,
    c10_missing_priority_matches_zero (fun _ => ⟨2024, 1, 10, 12, 0, 0, 0, some 0⟩) 0
      ⟨none, none, none, none, none, none, none, none, []⟩
      ⟨none, none, none, none, none, none, some 0, none, []⟩ rfl rfl⟩

/-- Modelled from the spec's words for comparison (C6): "the due date's UTC
calendar day" — the calendar day of the parsed instant after converting its
wall-clock fields to UTC by subtracting the offset (minutes suffice, since
offsets are whole minutes).  The code itself never performs this
conversion; it uses `datetime.date()`, the wall-clock day. -/
def specUtcDate (dt : PyDateTime) : PyDate :=
  let total : Int := daysFromCivil dt.year dt.month dt.day * 1440
    + ((dt.hour * 60 + dt.minute : Nat) : Int) - dt.tz.getD 0
  let r := civilFromDays (Int.fdiv total 1440)
  ⟨r.1.toNat, r.2.1.toNat, r.2.2.toNat⟩

/-- C6 counterexample: the task due `2024-01-10T01:00:00+0500` denotes the
UTC instant `2024-01-09T20:00:00Z`, whose UTC calendar day (Jan 9) lies in
the inclusive window `[Jan 2, Jan 9]` of `now = 2024-01-02T12:00:00Z`, so
the claim says it matches `this_week`; but the code compares the wall-clock
day `Jan 10` (`datetime.date()` performs no UTC conversion) and rejects
it. -/
theorem c6_counterexample :
    parseTickTickDate (some "2024-01-10T01:00:00+0500")
      = some ⟨2024, 1, 10, 1, 0, 0, 0, some 300⟩ ∧
    specUtcDate ⟨2024, 1, 10, 1, 0, 0, 0, some 300⟩ = ⟨2024, 1, 9⟩ ∧
    (PyDate.leB ⟨2024, 1, 2⟩ (specUtcDate ⟨2024, 1, 10, 1, 0, 0, 0, some 300⟩)
      && PyDate.leB (specUtcDate ⟨2024, 1, 10, 1, 0, 0, 0, some 300⟩)
          (PyDate.addDays ⟨2024, 1, 2⟩ 7)) = true ∧
    (weekWindowMatch (fun _ => ⟨2024, 1, 2, 12, 0, 0, 0, some 0⟩) 0
      ⟨none, none, none, none, none, some "2024-01-10T01:00:00+0500", none, none, []⟩).1
      = false := by
  refine ⟨by decide, by decide, by decide, by decide⟩

/-- C6 (amended): for every task with a parseable due date, the
`this_week`/`next_7_days` window matches exactly when the parsed
timestamp's own wall-clock calendar day (its `date()`, no UTC conversion)
lies in the inclusive range `[today, today + 7 days]` of the `now` sampled
for this task — inclusive at both ends. -/
theorem c6_week_window_inclusive (clock : Nat → PyDateTime) (idx : Nat) (task : TTask)
    (s : String) (dt : PyDateTime) (hdue : task.dueDate = some s)
    (hparse : parseTickTickDate (some s) = some dt) :
    (weekWindowMatch clock idx task).1
      = ((clock idx).dateOf.leB dt.dateOf
          && dt.dateOf.leB ((clock idx).dateOf.addDays 7)) := by
  cases hd : s.data with
  | nil =>
    exfalso
    have : parseTickTickDate (some s) = none := by
      simp only [parseTickTickDate]
      rw [if_pos hd]
    rw [hparse] at this
    simp at this
  | cons a as =>
    have hfb : strFalsy task.dueDate = false := by
      simp [strFalsy, hdue, hd]
    simp [weekWindowMatch, hdue, hfb, hparse, strFalsy, hd]

theorem c6_week_window_inclusive_witness :
    (⟨none, none, none, none, none, some "2024-01-09T23:00:00+0000", none, none, []⟩
        : TTask).dueDate = some "2024-01-09T23:00:00+0000" ∧
    parseTickTickDate (some "2024-01-09T23:00:00+0000")
      = some ⟨2024, 1, 9, 23, 0, 0, 0, some 0⟩ ∧
    (weekWindowMatch (fun _ => ⟨2024, 1, 2, 12, 0, 0, 0, some 0⟩) 0
        ⟨none, none, none, none, none, some "2024-01-09T23:00:00+0000", none, none, []⟩).1
      = ((fun _ : Nat => (⟨2024, 1, 2, 12, 0, 0, 0, some 0⟩ : PyDateTime)) 0).dateOf.leB
            (⟨2024, 1, 9, 23, 0, 0, 0, some 0⟩ : PyDateTime).dateOf
          && ((⟨2024, 1, 9, 23, 0, 0, 0, some 0⟩ : PyDateTime)).dateOf.leB
            (((fun _ : Nat => (⟨2024, 1, 2, 12, 0, 0, 0, some 0⟩ : PyDateTime)) 0).dateOf.addDays 7) :=
  ⟨rfl, by decide,
    c6_week_window_inclusive (fun _ => ⟨2024, 1, 2, 12, 0, 0, 0, some 0⟩) 0
      ⟨none, none, none, none, none, some "2024-01-09T23:00:00+0000", none, none, []⟩
      "2024-01-09T23:00:00+0000" ⟨2024, 1, 9, 23, 0, 0, 0, some 0⟩ rfl (by decide)⟩

/-- Number of `datetime.now` samples one evaluation of the compiled
predicate takes: one when a dated filter reaches a successfully parsed due
date, else zero. -/
def samplesOf (df : String) (task : TTask) : Nat :=
  if df = "all" then 0
  else if df = "today" ∨ df = "tomorrow" ∨ df = "overdue"
      ∨ df = "this_week" ∨ df = "next_7_days" then
    if strFalsy task.dueDate then 0
    else if (parseTickTickDate task.dueDate).isSome then 1 else 0
  else 0

/-- A task due `2024-01-10` (UTC), used to exhibit per-task clock
sampling. -/
def sampleDatedTask : TTask :=
  ⟨none, none, none, none, none, some "2024-01-10T12:00:00+0000", none, none, []⟩

/-- A clock whose first sample is just before midnight UTC and whose later
samples are just after: exactly the boundary the claimed invariant is
meant to rule out. -/
def midnightClock : Nat → PyDateTime := fun i =>
  if i = 0 then ⟨2024, 1, 10, 23, 59, 0, 0, some 0⟩ else ⟨2024, 1, 11, 0, 1, 0, 0, some 0⟩

/-- C1 counterexample: one `filter_tasks` run over two copies of the same
task with `date_filter = "today"`.  Were `now` captured once at the start
of the run, the run would agree with the run that uses the constant clock
frozen at the first reading, and the two identical tasks would classify
identically; instead the first task matches and the second does not. -/
theorem c1_counterexample :
    filterEnum (fun t s => taskFilter "today" none none midnightClock t s)
        (pyEnumerate 1 [sampleDatedTask, sampleDatedTask]) 0
      = (.ok [(1, sampleDatedTask)], 2) ∧
    filterEnum (fun t s => taskFilter "today" none none (fun _ => midnightClock 0) t s)
        (pyEnumerate 1 [sampleDatedTask, sampleDatedTask]) 0
      = (.ok [(1, sampleDatedTask), (2, sampleDatedTask)], 2) ∧
    ([(1, sampleDatedTask)] : List (Nat × TTask))
      ≠ [(1, sampleDatedTask), (2, sampleDatedTask)] := by
  refine ⟨rfl, rfl, by decide⟩

/-- C1 (amended): `now` is sampled inside each predicate call, not once per
run: a task's classification depends only on the clock value at its own
index (the sample taken during its evaluation), and the index advances by
one exactly when a dated filter reaches a parsed due date — so two tasks in
the same run may be judged against different clock readings. -/
theorem c1_now_sampled_per_task (df : String) (pr : Option Nat) (st : Option String)
    (clock : Nat → PyDateTime) (task : TTask) (idx : Nat) :
    (taskFilter df pr st clock task idx).1
        = (taskFilter df pr st (fun _ => clock idx) task idx).1 ∧
    (taskFilter df pr st clock task idx).2 = idx + samplesOf df task := by
  by_cases h1 : df = "all"
  · simp [taskFilter, samplesOf, h1]
  by_cases h2 : df = "today"
  · cases hf : strFalsy task.dueDate <;> rcases hp : parseTickTickDate task.dueDate with _ | dt <;>
      simp [taskFilter, samplesOf, isTaskDueToday, h1, h2, hf, hp]
  by_cases h3 : df = "tomorrow"
  · cases hf : strFalsy task.dueDate <;> rcases hp : parseTickTickDate task.dueDate with _ | dt <;>
      simp [taskFilter, samplesOf, isTaskDueInDays, h1, h2, h3, hf, hp]
  by_cases h4 : df = "overdue"
  · cases hf : strFalsy task.dueDate <;> rcases hp : parseTickTickDate task.dueDate with _ | dt <;>
      simp [taskFilter, samplesOf, isTaskOverdue, h1, h2, h3, h4, hf, hp] <;>
      rcases dt.tz with _ | o <;> simp
  by_cases h5 : df = "this_week"
  · cases hf : strFalsy task.dueDate <;> rcases hp : parseTickTickDate task.dueDate with _ | dt <;>
      simp [taskFilter, samplesOf, weekWindowMatch, h1, h2, h3, h4, h5, hf, hp]
  by_cases h6 : df = "next_7_days"
  · cases hf : strFalsy task.dueDate <;> rcases hp : parseTickTickDate task.dueDate with _ | dt <;>
      simp [taskFilter, samplesOf, weekWindowMatch, h1, h2, h3, h4, h5, h6, hf, hp]
  · simp [taskFilter, samplesOf, h1, h2, h3, h4, h5, h6]

/-- C7: `filter_tasks` validates before any fetch: an unknown date filter,
a priority outside `{0, 1, 3, 5}`, or a search term that is blank after
trimming each yield the exact descriptive message from the source — and the
call list is empty, so the external client is never touched; the embedding
is a total function, so no exception is raised. -/
theorem c7_validation_before_fetch (client : Client) (clock : Nat → PyDateTime)
    (df : String) (pr : Option Nat) (st : Option String) (pidOpt : Option String) :
    (validDateFilters.contains df = false →
      filterTasks client clock df pr st pidOpt
        = ("Invalid date_filter. Valid values: all, today, tomorrow, overdue, this_week, next_7_days",
            [])) ∧
    (validDateFilters.contains df = true → ∀ p, pr = some p → priorityKeys.contains p = false →
      filterTasks client clock df pr st pidOpt
        = ("Invalid priority. Valid values: [0, 1, 3, 5]", [])) ∧
    (validDateFilters.contains df = true →
      (match pr with | none => True | some p => priorityKeys.contains p = true) →
      ∀ t, st = some t → (pyStrip t).data.isEmpty = true →
      filterTasks client clock df pr st pidOpt = ("Search term cannot be empty.", [])) := by
  refine ⟨?_, ?_, ?_⟩
  · intro hdf
    rw [filterTasks.eq_def,
      if_pos (by simp [List.contains, List.elem_eq_mem] at hdf ⊢; simp [hdf])]
  · intro hdf p hpr hbad
    have hdf2 : df ∈ validDateFilters := List.elem_iff.mp hdf
    have hbad2 : p ∉ priorityKeys := by
      intro hmem
      have hbad2 : List.elem p priorityKeys = false := hbad
      rw [List.elem_iff.mpr hmem] at hbad2
      simp at hbad2
    rw [filterTasks.eq_def, if_neg (by simp [hdf2]), if_pos (by simp [hpr, hbad2])]
  · intro hdf hpr t hst hblank
    have hdf2 : df ∈ validDateFilters := List.elem_iff.mp hdf
    rw [filterTasks.eq_def, if_neg (by simp [hdf2]), if_neg ?hpr,
      if_pos (by simp [hst, hblank])]
    case hpr =>
      rcases pr with _ | p
      · simp
      · simp only at hpr
        simp [List.elem_iff.mp hpr]

theorem c7_validation_before_fetch_witness :
    validDateFilters.contains "invalid" = false ∧
    priorityKeys.contains 99 = false ∧
    (pyStrip "   ").data.isEmpty = true ∧
    filterTasks ⟨.ok [], fun _ => ⟨none, none⟩⟩ (fun _ => ⟨2024, 1, 2, 12, 0, 0, 0, some 0⟩)
        "invalid" none none none
      = ("Invalid date_filter. Valid values: all, today, tomorrow, overdue, this_week, next_7_days",
          []) ∧
    filterTasks ⟨.ok [], fun _ => ⟨none, none⟩⟩ (fun _ => ⟨2024, 1, 2, 12, 0, 0, 0, some 0⟩)
        "all" (some 99) none none
      = ("Invalid priority. Valid values: [0, 1, 3, 5]", []) ∧
    filterTasks ⟨.ok [], fun _ => ⟨none, none⟩⟩ (fun _ => ⟨2024, 1, 2, 12, 0, 0, 0, some 0⟩)
        "all" none (some "   ") none
      = ("Search term cannot be empty.", []) :=
  ⟨rfl, rfl, by decide,
    (c7_validation_before_fetch ⟨.ok [], fun _ => ⟨none, none⟩⟩
      (fun _ => ⟨2024, 1, 2, 12, 0, 0, 0, some 0⟩) "invalid" none none none).1 rfl,
    (c7_validation_before_fetch ⟨.ok [], fun _ => ⟨none, none⟩⟩
      (fun _ => ⟨2024, 1, 2, 12, 0, 0, 0, some 0⟩) "all" (some 99) none none).2.1 rfl 99 rfl rfl,
    (c7_validation_before_fetch ⟨.ok [], fun _ => ⟨none, none⟩⟩
      (fun _ => ⟨2024, 1, 2, 12, 0, 0, 0, some 0⟩) "all" none (some "   ") none).2.2 rfl
      trivial "   " rfl (by decide)⟩

/-- C9: when `filter_tasks` is pointed at a single project id that resolves
to a project whose `closed` flag is true, the report is just the header
`Found 1 projects:` — the loop skips the project before fetching, so the
only client call is the project-list fetch used for resolution, and no task
group is rendered. -/
theorem c9_named_closed_project_not_fetched (client : Client) (clock : Nat → PyDateTime)
    (df : String) (pr : Option Nat) (st : Option String) (pid : String)
    (ps : List Project) (p : Project)
    (hdf : validDateFilters.contains df = true)
    (hpr : match pr with | none => True | some q => priorityKeys.contains q = true)
    (hst : match st with | none => True | some t => (pyStrip t).data.isEmpty = false)
    (hpid : pid.data.isEmpty = false)
    (hprojects : client.projectsResult = .ok ps)
    (hres : resolveProject ps pid = some p)
    (hclosed : p.closed = some true) :
    filterTasks client clock df pr st (some pid)
      = ("Found 1 projects:\n\n", [.listProjects]) := by
  have hdf2 : df ∈ validDateFilters := List.elem_iff.mp hdf
  rw [filterTasks.eq_def, if_neg (by simp [hdf2]), if_neg ?h2, if_neg ?h3]
  case h2 =>
    rcases pr with _ | q
    · simp
    · simp only at hpr
      simp [List.elem_iff.mp hpr]
  case h3 =>
    rcases st with _ | t
    · simp
    · simp only at hst
      simp [hst]
  simp only [hprojects, hpid, hres, Bool.false_eq_true, if_false,
    getProjectTasksByFilter, projectLoop, pyEnumerate, hclosed]
  simp [projectLoop, hclosed]
  rfl

theorem c9_named_closed_project_not_fetched_witness :
    validDateFilters.contains "all" = true ∧
    resolveProject [⟨some "cp", some "Archive", none, none, some true, none⟩] "cp"
      = some ⟨some "cp", some "Archive", none, none, some true, none⟩ ∧
    filterTasks
        ⟨.ok [⟨some "cp", some "Archive", none, none, some true, none⟩],
          fun _ => ⟨none, some [⟨none, some "Ghost", none, none, none, none, none, none, []⟩]⟩⟩
        (fun _ => ⟨2024, 1, 2, 12, 0, 0, 0, some 0⟩) "all" none none (some "cp")
      = ("Found 1 projects:\n\n", [.listProjects]) :=
  ⟨rfl, by decide,
    c9_named_closed_project_not_fetched
      ⟨.ok [⟨some "cp", some "Archive", none, none, some true, none⟩],
        fun _ => ⟨none, some [⟨none, some "Ghost", none, none, none, none, none, none, []⟩]⟩⟩
      (fun _ => ⟨2024, 1, 2, 12, 0, 0, 0, some 0⟩) "all" none none "cp"
      [⟨some "cp", some "Archive", none, none, some true, none⟩]
      ⟨some "cp", some "Archive", none, none, some true, none⟩
      rfl trivial trivial rfl rfl (by decide) rfl⟩

theorem pyEnumerate_mem {α : Type} (n : Nat) (xs : List α) :
    ∀ ip ∈ pyEnumerate n xs, ip.2 ∈ xs := by
  induction xs generalizing n with
  | nil => simp [pyEnumerate]
  | cons x xs ih =>
    intro ip hip
    simp only [pyEnumerate, List.mem_cons] at hip
    rcases hip with h | h
    · subst h; exact List.mem_cons_self _ _
    · exact List.mem_cons_of_mem _ (ih (n + 1) ip h)

/-- Every task fetch the scan loop performs comes from a project whose
`closed` flag is falsy. -/
theorem projectLoop_calls_from_open {σ : Type} (client : String → ProjectData)
    (fil : TTask → σ → Except String Bool × σ) (fname : String)
    (ips : List (Nat × Project)) (acc : String) (s : σ) :
    ∀ call ∈ (projectLoop client fil fname ips acc s).2.1,
      ∃ ip ∈ ips, ip.2.closed.getD false = false
        ∧ call = .fetchTasks (ip.2.id.getD "No ID") := by
  induction ips generalizing acc s with
  | nil => intro call hc; simp [projectLoop] at hc
  | cons ip rest ih =>
    obtain ⟨i, p⟩ := ip
    intro call hc
    by_cases hcl : p.closed.getD false = true
    · simp only [projectLoop, hcl, if_true] at hc
      obtain ⟨q, hq, hq2, hq3⟩ := ih acc s call hc
      exact ⟨q, List.mem_cons_of_mem _ hq, hq2, hq3⟩
    · have hcl2 : p.closed.getD false = false := by
        revert hcl; cases p.closed.getD false <;> simp
      simp only [projectLoop, hcl2, Bool.false_eq_true, if_false] at hc
      by_cases he : ((client (p.id.getD "No ID")).tasks.getD []).isEmpty
      · simp only [he, if_true, List.mem_cons] at hc
        rcases hc with h | h
        · exact ⟨(i, p), List.mem_cons_self _ _, hcl2, h⟩
        · obtain ⟨q, hq, hq2, hq3⟩ := ih _ _ call h
          exact ⟨q, List.mem_cons_of_mem _ hq, hq2, hq3⟩
      · simp only [he, Bool.false_eq_true, if_false] at hc
        rcases hfe : filterEnum fil (pyEnumerate 1 ((client (p.id.getD "No ID")).tasks.getD [])) s
          with ⟨fe, s2⟩
        rw [hfe] at hc
        cases fe with
        | error e =>
          simp only [List.mem_singleton] at hc
          exact ⟨(i, p), List.mem_cons_self _ _, hcl2, hc⟩
        | ok filtered =>
          simp only [List.mem_cons] at hc
          rcases hc with h | h
          · exact ⟨(i, p), List.mem_cons_self _ _, hcl2, h⟩
          · obtain ⟨q, hq, hq2, hq3⟩ := ih _ _ call h
            exact ⟨q, List.mem_cons_of_mem _ hq, hq2, hq3⟩

/-- The scan helper only ever fetches open projects. -/
theorem gptbf_calls_from_open {σ : Type} (ps : List Project)
    (fil : TTask → σ → Except String Bool × σ) (fname : String)
    (client : String → ProjectData) (s : σ) :
    ∀ call ∈ (getProjectTasksByFilter ps fil fname client s).2.1,
      ∃ p ∈ ps, p.closed.getD false = false ∧ call = .fetchTasks (p.id.getD "No ID") := by
  intro call hc
  unfold getProjectTasksByFilter at hc
  by_cases he : ps.isEmpty
  · simp [he] at hc
  · simp only [he, Bool.false_eq_true, if_false] at hc
    obtain ⟨ip, hip, h2, h3⟩ := projectLoop_calls_from_open client fil fname _ _ _ call hc
    exact ⟨ip.2, pyEnumerate_mem 1 ps ip hip, h2, h3⟩

/-- The scan loop reads the fetch result only through
`project_data.get('tasks', [])`: two clients agreeing on that field are
indistinguishable to it. -/
theorem projectLoop_reads_only_tasks {σ : Type} (client client' : String → ProjectData)
    (hagree : ∀ pid, (client pid).tasks.getD [] = (client' pid).tasks.getD [])
    (fil : TTask → σ → Except String Bool × σ) (fname : String)
    (ips : List (Nat × Project)) (acc : String) (s : σ) :
    projectLoop client fil fname ips acc s = projectLoop client' fil fname ips acc s := by
  induction ips generalizing acc s with
  | nil => rfl
  | cons ip rest ih =>
    obtain ⟨i, p⟩ := ip
    by_cases hcl : p.closed.getD false = true
    · simp only [projectLoop, hcl, if_true]
      exact ih acc s
    · have hcl2 : p.closed.getD false = false := by
        revert hcl; cases p.closed.getD false <;> simp
      simp only [projectLoop, hcl2, Bool.false_eq_true, if_false, hagree (p.id.getD "No ID")]
      by_cases he : ((client' (p.id.getD "No ID")).tasks.getD []).isEmpty
      · simp only [he, if_true, ih]
      · simp only [he, Bool.false_eq_true, if_false]
        rcases hfe : filterEnum fil (pyEnumerate 1 ((client' (p.id.getD "No ID")).tasks.getD [])) s
          with ⟨fe, s2⟩
        cases fe <;> simp only [ih]

/-- C8: in an all-projects scan (validated inputs, `project_id` unset),
every client call is either the initial project-list fetch or a task fetch
for a project whose `closed` flag is falsy — and the loop discharges a
closed project without doing anything at all, so closed projects are never
queried and contribute no group to the report. -/
theorem c8_closed_projects_skipped (client : Client) (clock : Nat → PyDateTime) (df : String)
    (pr : Option Nat) (st : Option String) (ps : List Project)
    (hdf : validDateFilters.contains df = true)
    (hpr : match pr with | none => True | some q => priorityKeys.contains q = true)
    (hst : match st with | none => True | some t => (pyStrip t).data.isEmpty = false)
    (hprojects : client.projectsResult = .ok ps) :
    (∀ call ∈ (filterTasks client clock df pr st none).2,
        call = ClientCall.listProjects ∨
          ∃ p ∈ ps, p.closed.getD false = false
            ∧ call = ClientCall.fetchTasks (p.id.getD "No ID")) ∧
    (∀ (σ : Type) (cl : String → ProjectData) (fil : TTask → σ → Except String Bool × σ)
        (fname : String) (i : Nat) (p : Project) (rest : List (Nat × Project))
        (acc : String) (s : σ),
        p.closed.getD false = true →
        projectLoop cl fil fname ((i, p) :: rest) acc s
          = projectLoop cl fil fname rest acc s) := by
  constructor
  · have hdf2 : df ∈ validDateFilters := List.elem_iff.mp hdf
    have hmain : (filterTasks client clock df pr st none).2
        = ClientCall.listProjects ::
          (getProjectTasksByFilter ps (fun task s => taskFilter df pr st clock task s)
            (buildFilterName df pr st none) client.projectData 0).2.1 := by
      rw [filterTasks.eq_def, if_neg (by simp [hdf2]), if_neg ?h2, if_neg ?h3]
      case h2 =>
        rcases pr with _ | q
        · simp
        · simp only at hpr
          simp [List.elem_iff.mp hpr]
      case h3 =>
        rcases st with _ | t
        · simp
        · simp only at hst
          simp [hst]
      simp only [hprojects]
      rcases hg : getProjectTasksByFilter ps (fun task s => taskFilter df pr st clock task s)
          (buildFilterName df pr st none) client.projectData 0 with ⟨res, calls, s'⟩
      cases res <;> simp [hg]
    intro call hc
    rw [hmain, List.mem_cons] at hc
    rcases hc with h | h
    · exact Or.inl h
    · exact Or.inr (gptbf_calls_from_open ps _ _ client.projectData 0 call h)
  · intro σ cl fil fname i p rest acc s hcl
    simp only [projectLoop, hcl, if_true]

theorem c8_closed_projects_skipped_witness :
    validDateFilters.contains "all" = true ∧
    (⟨.ok [⟨some "cp", some "Archive", none, none, some true, none⟩,
           ⟨some "op", some "Open", none, none, some false, none⟩],
       fun _ => ⟨none, some []⟩⟩ : Client).projectsResult
      = .ok [⟨some "cp", some "Archive", none, none, some true, none⟩,
             ⟨some "op", some "Open", none, none, some false, none⟩] ∧
    (∀ call ∈ (filterTasks
        ⟨.ok [⟨some "cp", some "Archive", none, none, some true, none⟩,
              ⟨some "op", some "Open", none, none, some false, none⟩],
          fun _ => ⟨none, some []⟩⟩
        (fun _ => ⟨2024, 1, 2, 12, 0, 0, 0, some 0⟩) "all" none none none).2,
      call = ClientCall.listProjects ∨
        ∃ p ∈ [(⟨some "cp", some "Archive", none, none, some true, none⟩ : Project),
               ⟨some "op", some "Open", none, none, some false, none⟩],
          p.closed.getD false = false ∧ call = ClientCall.fetchTasks (p.id.getD "No ID")) :=
  ⟨rfl, rfl,
    (c8_closed_projects_skipped
      ⟨.ok [⟨some "cp", some "Archive", none, none, some true, none⟩,
            ⟨some "op", some "Open", none, none, some false, none⟩],
        fun _ => ⟨none, some []⟩⟩
      (fun _ => ⟨2024, 1, 2, 12, 0, 0, 0, some 0⟩) "all" none none
      [⟨some "cp", some "Archive", none, none, some true, none⟩,
       ⟨some "op", some "Open", none, none, some false, none⟩]
      rfl trivial trivial rfl).1⟩

/-- Two open projects used to exhibit the handling of a fetch failure. -/
def sampleProjectOne : Project := ⟨some "p1", some "Work", none, none, none, none⟩

/-- The second project, whose fetch will fail. -/
def sampleProjectTwo : Project := ⟨some "p2", some "Home", none, none, none, none⟩

/-- A task rendered in the first project's group. -/
def sampleTaskAlpha : TTask := ⟨some "t1", some "Alpha", none, none, none, none, none, none, []⟩

/-- A client whose fetch of `p2` signals a failure outcome: an `error`
message and no `tasks` key. -/
def sampleClientErr : String → ProjectData := fun pid =>
  if pid = "p1" then ⟨none, some [sampleTaskAlpha]⟩ else ⟨some "Token expired", none⟩

/-- The same client except that `p2` succeeds with an empty task list. -/
def sampleClientEmpty : String → ProjectData := fun pid =>
  if pid = "p1" then ⟨none, some [sampleTaskAlpha]⟩ else ⟨none, some []⟩

/-- A filter accepting every task (state-threaded, never raising). -/
def passAllFilter : TTask → Nat → Except String Bool × Nat := fun _ s => (.ok true, s)

/-- The rendered report of a scan result (the error message on a raise). -/
def reportOf (r : Except String String × List ClientCall × Nat) : String :=
  match r.1 with
  | .ok out => out
  | .error e => e

set_option maxRecDepth 100000 in
/-- C2 counterexample: scanning `[p1, p2]` where the client's fetch of `p2`
returns the failure outcome `{'error': "Token expired"}`, the output is
byte-for-byte the output of the client for which `p2` succeeds with zero
tasks: the failure is not surfaced — the message appears nowhere, the
affected project is shown as a zero-match group — although the first
project's group (containing `Alpha`) is rendered and the evaluation does
not crash. -/
theorem c2_counterexample :
    getProjectTasksByFilter [sampleProjectOne, sampleProjectTwo] passAllFilter "all tasks"
        sampleClientErr 0
      = getProjectTasksByFilter [sampleProjectOne, sampleProjectTwo] passAllFilter "all tasks"
        sampleClientEmpty 0 ∧
    pyIn "Token expired"
      (reportOf (getProjectTasksByFilter [sampleProjectOne, sampleProjectTwo] passAllFilter
        "all tasks" sampleClientErr 0)) = false ∧
    pyIn "Alpha"
      (reportOf (getProjectTasksByFilter [sampleProjectOne, sampleProjectTwo] passAllFilter
        "all tasks" sampleClientErr 0)) = true ∧
    pyIn "With 0 tasks"
      (reportOf (getProjectTasksByFilter [sampleProjectOne, sampleProjectTwo] passAllFilter
        "all tasks" sampleClientErr 0)) = true := by
  refine ⟨rfl, by decide, by decide, by decide⟩

/-- C2 (amended): a per-project fetch failure is never surfaced: the scan
reads the fetch result only through `get('tasks', [])`, so a failure
outcome renders exactly as an empty project would — the affected project
gets the zero-match line, the loop proceeds to the remaining projects, and
the groups of all other projects are exactly what they would have been (an
error-dict client and a success client agreeing on the `tasks` fields
produce identical reports, so no crash and no effect on prior groups). -/
theorem c2_fetch_failure_silently_empty {σ : Type} (ps : List Project)
    (fil : TTask → σ → Except String Bool × σ) (fname : String)
    (client client' : String → ProjectData) (s : σ)
    (hagree : ∀ pid, (client pid).tasks.getD [] = (client' pid).tasks.getD []) :
    getProjectTasksByFilter ps fil fname client s
        = getProjectTasksByFilter ps fil fname client' s ∧
    (∀ (i : Nat) (p : Project) (rest : List (Nat × Project)) (acc : String) (st2 : σ),
      p.closed.getD false = false →
      (client (p.id.getD "No ID")).tasks.getD [] = [] →
      projectLoop client fil fname ((i, p) :: rest) acc st2
        = (let r := projectLoop client fil fname rest
              (acc ++ "Project " ++ toString i ++ ":\n" ++ formatProject p
                ++ "With 0 tasks that are to be '" ++ fname ++ "' in this project :\n\n\n") st2
           (r.1, ClientCall.fetchTasks (p.id.getD "No ID") :: r.2.1, r.2.2))) := by
  constructor
  · unfold getProjectTasksByFilter
    by_cases he : ps.isEmpty
    · simp [he]
    · simp only [he, Bool.false_eq_true, if_false]
      exact projectLoop_reads_only_tasks client client' hagree fil fname _ _ s
  · intro i p rest acc st2 hopen hempty
    simp only [projectLoop, hopen, Bool.false_eq_true, if_false, hempty, List.isEmpty_nil,
      if_true]

theorem c2_fetch_failure_silently_empty_witness :
    (∀ pid, (sampleClientErr pid).tasks.getD [] = (sampleClientEmpty pid).tasks.getD []) ∧
    getProjectTasksByFilter [sampleProjectOne, sampleProjectTwo] passAllFilter "all tasks"
        sampleClientErr 0
      = getProjectTasksByFilter [sampleProjectOne, sampleProjectTwo] passAllFilter "all tasks"
        sampleClientEmpty 0 :=
  ⟨fun pid => by by_cases h : pid = "p1" <;> simp [sampleClientErr, sampleClientEmpty, h],
    (c2_fetch_failure_silently_empty [sampleProjectOne, sampleProjectTwo] passAllFilter
      "all tasks" sampleClientErr sampleClientEmpty 0
      (fun pid => by by_cases h : pid = "p1" <;>
        simp [sampleClientErr, sampleClientEmpty, h])).1⟩
